import Mathlib

/-!
Shallow embedding of the notification preference & delivery engine of the
wms repository (`src/models/Notification.js`, the NotificationPreferences
model, `src/routes/notifications.js`, `src/routes/received.js`, and the
contract-exceeded sweep `checkAndNotifyExceededContracts`).

Modelling conventions:
* Instants are minutes since an arbitrary epoch, as `Int`.
* A JavaScript `Date` rendered through `getHours`/`setHours` shows the
  **server's local** wall clock; the server's UTC offset in minutes is an
  explicit parameter `off : Int`.  A timezone string stored in preferences
  is modelled by the offset (in minutes) it denotes.
* Channel transports are oracles: `some r` means the transport call
  returned acknowledgment `r` (an opaque `Nat`), `none` means it threw
  (the exception is caught by the engine).
* Persistence of the initial `save()` is an explicit `saveOk : Bool`;
  `false` models the store throwing.
* The notification store is a `List Notification`; creating a record
  conses it onto the store.
-/

namespace Wms

/-- Notification lifecycle status, from the `status` enum of the
Notification schema. -/
inductive NStatus where
  | pending
  | sent
  | delivered
  | read
  | archived
deriving DecidableEq, Repr

/-- Notification priority, from the `priority` enum. -/
inductive NPriority where
  | low
  | medium
  | high
  | urgent
deriving DecidableEq, Repr

/-- Notification type, from the `type` enum of the Notification schema
(all sixteen registered values). -/
inductive NotifType where
  | task_assigned
  | task_completed
  | deadline_approaching
  | deadline_overdue
  | time_approved
  | time_rejected
  | system_announcement
  | reminder
  | overtime_alert
  | schedule_change
  | low_stock
  | daily_report_missing
  | contract_exceeded
  | inventory_exceeded
  | attendance_checkin
  | attendance_checkout
deriving DecidableEq, Repr

/-- The only error the engine lets escape: a persistence (store) failure. -/
inductive PersistError where
  | persistFailure
deriving DecidableEq, Repr

/-- A delivery channel: Expo mobile push or web push. -/
inductive Chan where
  | push
  | web
deriving DecidableEq, Repr

/-- The per-type toggle table of the NotificationPreferences schema.
It has exactly the twelve keys declared in `notificationTypes`; the four
newer enum values (`contract_exceeded`, `inventory_exceeded`,
`attendance_checkin`, `attendance_checkout`) have no field here, exactly
as in the schema. -/
structure NotifTypes where
  task_assigned : Bool
  task_completed : Bool
  deadline_approaching : Bool
  deadline_overdue : Bool
  time_approved : Bool
  time_rejected : Bool
  system_announcement : Bool
  reminder : Bool
  overtime_alert : Bool
  schedule_change : Bool
  low_stock : Bool
  daily_report_missing : Bool
deriving DecidableEq, Repr

/-- `notificationTypes[type]` of the source: reading a key that is not a
schema path yields `undefined`, which is falsy, so the four types missing
from the table map to `false`. -/
def NotifTypes.lookup (nt : NotifTypes) : NotifType → Bool
  | .task_assigned => nt.task_assigned
  | .task_completed => nt.task_completed
  | .deadline_approaching => nt.deadline_approaching
  | .deadline_overdue => nt.deadline_overdue
  | .time_approved => nt.time_approved
  | .time_rejected => nt.time_rejected
  | .system_announcement => nt.system_announcement
  | .reminder => nt.reminder
  | .overtime_alert => nt.overtime_alert
  | .schedule_change => nt.schedule_change
  | .low_stock => nt.low_stock
  | .daily_report_missing => nt.daily_report_missing
  | .contract_exceeded => false
  | .inventory_exceeded => false
  | .attendance_checkin => false
  | .attendance_checkout => false

/-- NotificationPreferences record.  `quietStart`/`quietEnd` are the
parsed `HH:MM` strings as (hour, minute) pairs; `tzOffset` is the UTC
offset (minutes) denoted by the stored `quietHours.timezone` string. -/
structure Prefs where
  pushEnabled : Bool
  notificationTypes : NotifTypes
  quietEnabled : Bool
  quietStart : Nat × Nat
  quietEnd : Nat × Nat
  tzOffset : Int
  pushToken : Option String
  webPushSubscription : Option Nat
  lastUpdated : Int
deriving DecidableEq, Repr

/-- `isNotificationEnabled(type)`:
`this.pushEnabled && this.notificationTypes[type]`. -/
def isNotificationEnabled (p : Prefs) (t : NotifType) : Bool :=
  p.pushEnabled && p.notificationTypes.lookup t

/-- Wall-clock minute of day of instant `now` in a timezone with UTC
offset `off` minutes. -/
def wallOf (off now : Int) : Int :=
  (now + off) % 1440

/-- `parseInt(str.replace(':',''))` on an `HH:MM` string: the HHMM
integer encoding. -/
def hhmm (x : Nat × Nat) : Nat :=
  x.1 * 100 + x.2

/-- Minute-of-day encoding of an (hour, minute) pair. -/
def minutesOfDay (x : Nat × Nat) : Nat :=
  x.1 * 60 + x.2

/-- `now.getHours() * 100 + now.getMinutes()` for a server with UTC
offset `off`. -/
def currentHHMM (off now : Int) : Int :=
  let w := wallOf off now
  (w / 60) * 100 + w % 60

/-- `isInQuietHours()` from the NotificationPreferences model: uses the
server-local clock (`new Date()` rendered via `getHours`/`getMinutes`)
and the HHMM integer encoding of `startTime`/`endTime`.  Note the stored
`quietHours.timezone` (`tzOffset`) is never read. -/
def isInQuietHours (p : Prefs) (off now : Int) : Bool :=
  if !p.quietEnabled then false
  else
    let currentTime := currentHHMM off now
    let startTime : Int := hhmm p.quietStart
    let endTime : Int := hhmm p.quietEnd
    if startTime < endTime then
      decide (startTime ≤ currentTime) && decide (currentTime ≤ endTime)
    else
      decide (currentTime ≥ startTime) || decide (currentTime ≤ endTime)

/-- The claim's reading of `isInQuietHours`: convert `now` to the
**stored** `quietHours.timezone`, compare minute-of-day values, window
logic as in the claim.  Written from the spec's words, for comparison
with the source definition. -/
def isInQuietHoursSpec (p : Prefs) (now : Int) : Bool :=
  if !p.quietEnabled then false
  else
    let t := wallOf p.tzOffset now
    let s : Int := minutesOfDay p.quietStart
    let e : Int := minutesOfDay p.quietEnd
    if s < e then
      decide (s ≤ t) && decide (t ≤ e)
    else
      decide (t ≥ s) || decide (t ≤ e)

/-- The amended reading of `isInQuietHours`: the same window logic on
minute-of-day values, but on the **server-local** clock, ignoring the
stored timezone. -/
def isInQuietHoursServerMinutes (p : Prefs) (off now : Int) : Bool :=
  if !p.quietEnabled then false
  else
    let t := wallOf off now
    let s : Int := minutesOfDay p.quietStart
    let e : Int := minutesOfDay p.quietEnd
    if s < e then
      decide (s ≤ t) && decide (t ≤ e)
    else
      decide (t ≥ s) || decide (t ≤ e)

/-- An (hour, minute) pair parsed from a well-formed `HH:MM` string. -/
def validHM (x : Nat × Nat) : Prop :=
  x.1 < 24 ∧ x.2 < 60

/-- The quiet-hours deferral instant computed inside
`sendNotificationIfAllowed`: `scheduledTime = new Date()` (i.e. `now`),
then `setHours(endH, endM, 0, 0)` in the **server-local** clock, then
`setDate(+1)` when `scheduledTime <= new Date()`. -/
def computeScheduledFor (p : Prefs) (off now : Int) : Int :=
  let endMin : Int := minutesOfDay p.quietEnd
  let cand := now - wallOf off now + endMin
  if cand ≤ now then cand + 1440 else cand

/-- The claim's reading of the deferral instant: the next occurrence of
`quietHours.endTime` in the **recipient's stored timezone**, rolled to
the next calendar day if already passed.  Written from the spec's words,
for comparison with the source definition. -/
def nextEndTimeInTzSpec (tz : Int) (endTime : Nat × Nat) (now : Int) : Int :=
  let endMin : Int := minutesOfDay endTime
  let cand := now - wallOf tz now + endMin
  if cand ≤ now then cand + 1440 else cand

/-- The `notificationData` argument of
`sendNotificationIfAllowed`/`createAndSend`.  `dataKey` stands for the
correlation key inside `data` (e.g. `data.contractId`,
`data.materialId`); responses and subscriptions are opaque `Nat`s. -/
structure NotifData where
  recipient : Nat
  sender : Option Nat
  title : String
  message : String
  ntype : NotifType
  priority : NPriority
  dataKey : Option Nat
  scheduledFor : Option Int
  pushToken : Option String
  webPushSubscription : Option Nat
deriving DecidableEq, Repr

/-- A persisted Notification record. -/
structure Notification where
  recipient : Nat
  sender : Option Nat
  title : String
  message : String
  ntype : NotifType
  priority : NPriority
  status : NStatus
  dataKey : Option Nat
  pushToken : Option String
  webPushSubscription : Option Nat
  pushResponse : Option Nat
  webPushResponse : Option Nat
  scheduledFor : Option Int
  readAt : Option Int
  createdAt : Int
deriving DecidableEq, Repr

/-- `new this({...notificationData, status: 'pending'})` — the record as
first persisted by `createAndSend`. -/
def mkPending (d : NotifData) (now : Int) : Notification :=
  { recipient := d.recipient
    sender := d.sender
    title := d.title
    message := d.message
    ntype := d.ntype
    priority := d.priority
    status := .pending
    dataKey := d.dataKey
    pushToken := d.pushToken
    webPushSubscription := d.webPushSubscription
    pushResponse := none
    webPushResponse := none
    scheduledFor := d.scheduledFor
    readAt := none
    createdAt := now }

/-- `markAsRead()`: sets status to `read` and stamps `readAt`,
unconditionally (no guard on the current status). -/
def markAsRead (n : Notification) (t : Int) : Notification :=
  { n with status := .read, readAt := some t }

/-- `markAsDelivered(response)`: sets status to `delivered` and stores
the response in `pushResponse`. -/
def markAsDelivered (n : Notification) (r : Option Nat) : Notification :=
  { n with status := .delivered,
           pushResponse := match r with | some v => some v | none => n.pushResponse }

/-- The archive route (`DELETE /:id`): sets status to `archived`,
unconditionally. -/
def archiveNotification (n : Notification) : Notification :=
  { n with status := .archived }

/-- One record's update under `PUT /read-all`
(`updateMany({recipient, status ≠ read}, {status: read, readAt: now})`). -/
def readAllOne (uid : Nat) (t : Int) (n : Notification) : Notification :=
  if n.recipient = uid ∧ n.status ≠ .read then
    { n with status := .read, readAt := some t }
  else n

/-- The shared per-record delivery attempt of `createAndSend` and
`processScheduledNotifications` (the two code blocks are identical):
attempt Expo push when a `pushToken` is on the record, then web push
when a `webPushSubscription` is on the record; the first
acknowledgment calls `markAsDelivered`; a web acknowledgment always
stores `webPushResponse`.  Returns the updated record and the list of
channels attempted.  `po`/`wo` are the transport outcomes
(`none` = the transport threw, caught by the engine). -/
def attemptDelivery (n : Notification) (po wo : Option Nat) :
    Notification × List Chan :=
  let step1 : Notification × List Chan × Bool :=
    match n.pushToken with
    | none => (n, [], false)
    | some _ =>
      match po with
      | some r => (markAsDelivered n (some r), [Chan.push], true)
      | none => (n, [Chan.push], false)
  let n1 := step1.1
  let log1 := step1.2.1
  let delivered := step1.2.2
  match n.webPushSubscription with
  | none => (n1, log1)
  | some _ =>
    match wo with
    | some r =>
      if delivered then
        ({ n1 with webPushResponse := some r }, log1 ++ [Chan.web])
      else
        (markAsDelivered { n1 with webPushResponse := some r } (some r),
         log1 ++ [Chan.web])
    | none => (n1, log1 ++ [Chan.web])

/-- `createAndSend(notificationData)`: persists the record first with
status `pending` (a store failure propagates: `.error`), returns
without any attempt when `scheduledFor` is in the future, otherwise
runs the per-channel delivery attempts.  The second component is the
list of channels attempted. -/
def createAndSend (d : NotifData) (now : Int) (po wo : Option Nat)
    (saveOk : Bool) : Except PersistError Notification × List Chan :=
  if !saveOk then (.error .persistFailure, [])
  else
    let n := mkPending d now
    match n.scheduledFor with
    | some t =>
      if now < t then (.ok n, [])
      else
        let r := attemptDelivery n po wo
        (.ok r.1, r.2)
    | none =>
      let r := attemptDelivery n po wo
      (.ok r.1, r.2)

/-- The channel-target attachment steps of `sendNotificationIfAllowed`:
`if (preferences.pushToken) notificationData.pushToken = ...` and the
analogous web-push line. -/
def attachTargets (p : Prefs) (d : NotifData) : NotifData :=
  let d2 :=
    match p.pushToken with
    | some tk => { d with pushToken := some tk }
    | none => d
  match p.webPushSubscription with
  | some s => { d2 with webPushSubscription := some s }
  | none => d2

/-- `sendNotificationIfAllowed(userId, notificationData)` from the
NotificationPreferences model, with the preferences already resolved
(`getOrCreateForUser` touches only the preferences store).  Returns the
created record (or `none` when suppressed), the updated notification
store, and the channels attempted. -/
def sendNotificationIfAllowed (p : Prefs) (d : NotifData) (now off : Int)
    (po wo : Option Nat) (saveOk : Bool) (store : List Notification) :
    Except PersistError (Option Notification × List Notification × List Chan) :=
  if isNotificationEnabled p d.ntype then
    let d1 :=
      if isInQuietHours p off now ∧ d.priority ≠ .urgent then
        { d with scheduledFor := some (computeScheduledFor p off now) }
      else d
    match createAndSend (attachTargets p d1) now po wo saveOk with
    | (.error e, _) => .error e
    | (.ok n, log) => .ok (some n, n :: store, log)
  else
    .ok (none, store, [])

/-- The selection predicate of `processScheduledNotifications`:
`scheduledFor` exists and is `≤ now`, and status is `pending` or
`sent`. -/
def eligibleB (now : Int) (n : Notification) : Bool :=
  (match n.scheduledFor with
   | some t => decide (t ≤ now)
   | none => false) &&
  (n.status = NStatus.pending || n.status = NStatus.sent)

/-- `this.find({scheduledFor: {$exists, $lte: now}, status: {$in:
[pending, sent]}}).limit(100)` — the batch selected by a sweep. -/
def selectScheduled (store : List Notification) (now : Int) :
    List Notification :=
  (store.filter (eligibleB now)).take 100

/-- The notification store after one
`processScheduledNotifications` sweep: the first `budget` (100)
eligible records, in store order, are replaced by the result of their
delivery re-attempt; every other record is untouched.  `orc` gives the
transport outcomes for a record's targets. -/
def sweep (orc : Notification → Option Nat × Option Nat) (now : Int) :
    List Notification → Nat → List Notification
  | [], _ => []
  | n :: rest, b =>
    if eligibleB now n then
      match b with
      | 0 => n :: sweep orc now rest 0
      | b' + 1 => (attemptDelivery n (orc n).1 (orc n).2).1 :: sweep orc now rest b'
    else
      n :: sweep orc now rest b

/-- `updatePushToken(token)` on a preferences record. -/
def updatePushToken (p : Prefs) (tok : String) (t : Int) : Prefs :=
  { p with pushToken := some tok, lastUpdated := t }

/-- `updateWebPushSubscription(subscription)` on a preferences record. -/
def updateWebPushSubscription (p : Prefs) (s : Nat) (t : Int) : Prefs :=
  { p with webPushSubscription := some s, lastUpdated := t }

/-- One recipient's preferences together with the notification store. -/
structure SysState where
  prefs : Prefs
  store : List Notification

/-- Engine operations that can run between a record's creation and a
later look at the store: dispatcher sweeps and channel-target
registrations on the preferences. -/
inductive Op where
  | sweepOp (orc : Notification → Option Nat × Option Nat) (now : Int)
  | pushTokenOp (tok : String) (t : Int)
  | webSubOp (s : Nat) (t : Int)

/-- Apply one operation to the system state.  A sweep touches only the
notification store (it reads targets off the records, never the
preferences); a target registration touches only the preferences. -/
def applyOp (s : SysState) : Op → SysState
  | .sweepOp orc now => { s with store := sweep orc now s.store 100 }
  | .pushTokenOp tok t => { s with prefs := updatePushToken s.prefs tok t }
  | .webSubOp sub t => { s with prefs := updateWebPushSubscription s.prefs sub t }

/-- Apply a sequence of operations. -/
def runOps (s : SysState) : List Op → SysState
  | [] => s
  | op :: rest => runOps (applyOp s op) rest

/-- The `countDocuments` query of the contract-exceeded sweep: records
for this recipient, type, and correlation key created within
`[dayStart, dayStart + 1440)` (the server-local calendar day). -/
def countSameDay (store : List Notification) (uid : Nat) (ty : NotifType)
    (key : Option Nat) (dayStart : Int) : Nat :=
  (store.filter (fun n =>
    n.recipient = uid && n.ntype = ty && n.dataKey = key &&
    decide (dayStart ≤ n.createdAt) && decide (n.createdAt < dayStart + 1440))).length

/-- The `notificationData` built by `checkAndNotifyExceededContracts`
for one user and one exceeded contract. -/
def contractPayload (uid cKey : Nat) (msg : String) : NotifData :=
  { recipient := uid
    sender := none
    title := "Contract Quantity Exceeded"
    message := msg
    ntype := .contract_exceeded
    priority := .high
    dataKey := some cKey
    scheduledFor := none
    pushToken := none
    webPushSubscription := none }

/-- The per-user body of `checkAndNotifyExceededContracts` for one
exceeded contract: count today's `contract_exceeded` notifications for
this user and contract; skip when the count has reached 2, otherwise
call `sendNotificationIfAllowed` (whose failure is caught and logged,
leaving the store unchanged).  Returns the updated store. -/
def contractNotifyUser (p : Prefs) (uid cKey : Nat) (msg : String)
    (now off : Int) (po wo : Option Nat) (saveOk : Bool)
    (store : List Notification) : List Notification :=
  let dayStart := now - wallOf off now
  let cnt := countSameDay store uid .contract_exceeded (some cKey) dayStart
  if 2 ≤ cnt then store
  else
    match sendNotificationIfAllowed p (contractPayload uid cKey msg) now off
        po wo saveOk store with
    | .ok (_, store', _) => store'
    | .error _ => store

/-- The guard of `notifyLowStockIfNeeded`: notify exactly when the
(`finite`) new quantity is at or below the threshold while the previous
quantity was strictly above it; a negative threshold never notifies
(`getLowStockThreshold` in fact never returns one). -/
def shouldNotifyLowStock (threshold quantity prevQuantity : Int) : Bool :=
  if threshold < 0 then false
  else if threshold < quantity then false
  else if prevQuantity ≤ threshold then false
  else true

/-- Run a sequence of quantity updates through the low-stock guard:
each update's previous quantity is the quantity left by the one before
it. -/
def lowStockFlags (threshold : Int) : Int → List Int → List Bool
  | _, [] => []
  | prev, q :: rest =>
    shouldNotifyLowStock threshold q prev :: lowStockFlags threshold q rest

/-! Concrete sample values, used to instantiate the theorems below. -/

/-- The schema defaults of `notificationTypes`: all twelve toggles on. -/
def ntAllOn : NotifTypes :=
  { task_assigned := true
    task_completed := true
    deadline_approaching := true
    deadline_overdue := true
    time_approved := true
    time_rejected := true
    system_announcement := true
    reminder := true
    overtime_alert := true
    schedule_change := true
    low_stock := true
    daily_report_missing := true }

/-- The engine-default preferences (`getOrCreateForUser` on a fresh
user): push enabled, all types enabled, quiet hours disabled. -/
def prefsDefault : Prefs :=
  { pushEnabled := true
    notificationTypes := ntAllOn
    quietEnabled := false
    quietStart := (22, 0)
    quietEnd := (8, 0)
    tzOffset := 0
    pushToken := none
    webPushSubscription := none
    lastUpdated := 0 }

/-- Preferences with the global push switch off. -/
def prefsPushOff : Prefs :=
  { prefsDefault with pushEnabled := false }

/-- Preferences with a same-day quiet window 08:00–18:00 stored with a
UTC+1 timezone, on a UTC server. -/
def prefsQuietTz : Prefs :=
  { prefsDefault with
      quietEnabled := true
      quietStart := (8, 0)
      quietEnd := (18, 0)
      tzOffset := 60 }

/-- Preferences with a same-day quiet window 00:00–08:00 stored with a
UTC+1 timezone, on a UTC server. -/
def prefsQuietNight : Prefs :=
  { prefsDefault with
      quietEnabled := true
      quietStart := (0, 0)
      quietEnd := (8, 0)
      tzOffset := 60 }

/-- A plain medium-priority reminder payload. -/
def dataReminder : NotifData :=
  { recipient := 1
    sender := none
    title := "t"
    message := "m"
    ntype := .reminder
    priority := .medium
    dataKey := none
    scheduledFor := none
    pushToken := none
    webPushSubscription := none }

/-- A reminder payload carrying a push token. -/
def dataWithToken : NotifData :=
  { dataReminder with pushToken := some "tk" }

/-- The low-stock payload for recipient `uid` and material key `k`. -/
def lowStockData (uid k : Nat) : NotifData :=
  { recipient := uid
    sender := none
    title := "Low stock: M"
    message := "restock"
    ntype := .low_stock
    priority := .high
    dataKey := some k
    scheduledFor := none
    pushToken := none
    webPushSubscription := none }

/-- Two low-stock notifications for recipient 1 and key 7, created at
minutes 100 and 200 of the same server-local calendar day. -/
def storeTwoPrior : List Notification :=
  [mkPending (lowStockData 1 7) 100, mkPending (lowStockData 1 7) 200]

/-- Two contract-exceeded notifications for recipient 1 and contract
key 7, created at minutes 100 and 200 of the same server-local day. -/
def storeTwoContract : List Notification :=
  [mkPending (contractPayload 1 7 "m") 100, mkPending (contractPayload 1 7 "m") 200]

/-- An archived notification record. -/
def nArchived : Notification :=
  { mkPending dataReminder 0 with status := .archived }

/-- A pending notification with no channel targets, scheduled for
minute 50. -/
def nTargetless : Notification :=
  { mkPending { dataReminder with scheduledFor := some 50 } 0 with status := .pending }

/-- A system state holding only `nTargetless`. -/
def sysTargetless : SysState :=
  { prefs := prefsDefault, store := [nTargetless] }

/-- Two sweeps (with transports that would acknowledge) around a push
token registration. -/
def opsSample : List Op :=
  [Op.sweepOp (fun _ => (some 5, some 6)) 60,
   Op.pushTokenOp "tk" 70,
   Op.sweepOp (fun _ => (some 8, some 9)) 80]

/-! Helper lemmas. -/

theorem sendIfAllowed_not_enabled (p : Prefs) (d : NotifData) (now off : Int)
    (po wo : Option Nat) (saveOk : Bool) (store : List Notification)
    (h : isNotificationEnabled p d.ntype = false) :
    sendNotificationIfAllowed p d now off po wo saveOk store =
      .ok (none, store, []) := by
  simp [sendNotificationIfAllowed, h]

theorem sendIfAllowed_unregistered (p : Prefs) (d : NotifData) (now off : Int)
    (po wo : Option Nat) (saveOk : Bool) (store : List Notification)
    (h : d.ntype = .contract_exceeded ∨ d.ntype = .inventory_exceeded ∨
         d.ntype = .attendance_checkin ∨ d.ntype = .attendance_checkout) :
    sendNotificationIfAllowed p d now off po wo saveOk store =
      .ok (none, store, []) := by
  apply sendIfAllowed_not_enabled
  unfold isNotificationEnabled
  rcases h with h | h | h | h <;> rw [h] <;> simp [NotifTypes.lookup]

theorem attemptDelivery_log (n : Notification) (po wo : Option Nat) :
    (attemptDelivery n po wo).2 =
      (if n.pushToken.isSome then [Chan.push] else []) ++
      (if n.webPushSubscription.isSome then [Chan.web] else []) := by
  unfold attemptDelivery
  cases hp : n.pushToken <;> cases po <;> cases hw : n.webPushSubscription <;>
    cases wo <;> simp [hp, hw, markAsDelivered]

theorem attemptDelivery_noAck (n : Notification) (po wo : Option Nat)
    (h1 : po = none ∨ n.pushToken = none)
    (h2 : wo = none ∨ n.webPushSubscription = none) :
    (attemptDelivery n po wo).1 = n := by
  unfold attemptDelivery
  rcases h1 with h1 | h1 <;> rcases h2 with h2 | h2 <;>
    simp only [h1, h2] <;>
    cases hp : n.pushToken <;> cases hw : n.webPushSubscription <;>
      simp_all

theorem attemptDelivery_ack (n : Notification) (po wo : Option Nat)
    (h : n.pushToken.isSome ∧ po.isSome ∨
         n.webPushSubscription.isSome ∧ wo.isSome) :
    (attemptDelivery n po wo).1.status = .delivered
    ∧ (attemptDelivery n po wo).1.pushResponse.isSome := by
  unfold attemptDelivery
  rcases h with ⟨h1, h2⟩ | ⟨h1, h2⟩ <;>
    cases hp : n.pushToken <;> cases hpo : po <;>
    cases hw : n.webPushSubscription <;> cases hwo : wo <;>
    simp_all [markAsDelivered]

theorem attemptDelivery_frame (n : Notification) (po wo : Option Nat) :
    (attemptDelivery n po wo).1.scheduledFor = n.scheduledFor
    ∧ (attemptDelivery n po wo).1.pushToken = n.pushToken
    ∧ (attemptDelivery n po wo).1.webPushSubscription = n.webPushSubscription
    ∧ (attemptDelivery n po wo).1.recipient = n.recipient
    ∧ ((attemptDelivery n po wo).1.status = n.status
       ∨ (attemptDelivery n po wo).1.status = .delivered) := by
  unfold attemptDelivery
  cases hp : n.pushToken <;> cases po <;> cases hw : n.webPushSubscription <;>
    cases wo <;> simp [hp, hw, markAsDelivered]

theorem createAndSend_saveFail (d : NotifData) (now : Int) (po wo : Option Nat) :
    createAndSend d now po wo false = (.error .persistFailure, []) := rfl

theorem createAndSend_future (d : NotifData) (now : Int) (po wo : Option Nat)
    (t : Int) (hd : d.scheduledFor = some t) (hlt : now < t) :
    createAndSend d now po wo true = (.ok (mkPending d now), []) := by
  have hs : (mkPending d now).scheduledFor = some t := by simp [mkPending, hd]
  simp [createAndSend, hs, hlt]

theorem createAndSend_immediate (d : NotifData) (now : Int) (po wo : Option Nat)
    (hd : d.scheduledFor = none ∨ ∃ t, d.scheduledFor = some t ∧ t ≤ now) :
    createAndSend d now po wo true =
      (.ok (attemptDelivery (mkPending d now) po wo).1,
       (attemptDelivery (mkPending d now) po wo).2) := by
  rcases hd with hd | ⟨t, hd, hle⟩
  · have hs : (mkPending d now).scheduledFor = none := by simp [mkPending, hd]
    simp [createAndSend, hs]
  · have hs : (mkPending d now).scheduledFor = some t := by simp [mkPending, hd]
    simp [createAndSend, hs, not_lt.mpr hle]

theorem createAndSend_ok (d : NotifData) (now : Int) (po wo : Option Nat) :
    ∃ n log, createAndSend d now po wo true = (.ok n, log) := by
  rcases hd : d.scheduledFor with _ | t
  · rw [createAndSend_immediate d now po wo (Or.inl hd)]
    exact ⟨_, _, rfl⟩
  · by_cases hlt : now < t
    · rw [createAndSend_future d now po wo t hd hlt]
      exact ⟨_, _, rfl⟩
    · rw [createAndSend_immediate d now po wo (Or.inr ⟨t, hd, by omega⟩)]
      exact ⟨_, _, rfl⟩

theorem attemptDelivery_targetless (n : Notification) (po wo : Option Nat)
    (h1 : n.pushToken = none) (h2 : n.webPushSubscription = none) :
    (attemptDelivery n po wo).1 = n :=
  attemptDelivery_noAck n po wo (Or.inr h1) (Or.inr h2)

theorem mem_sweep (n : Notification) (h1 : n.pushToken = none)
    (h2 : n.webPushSubscription = none)
    (orc : Notification → Option Nat × Option Nat) (now : Int) :
    ∀ (l : List Notification) (b : Nat), n ∈ l → n ∈ sweep orc now l b := by
  intro l
  induction l with
  | nil => intro b h; cases h
  | cons m rest ih =>
    intro b h
    rcases List.mem_cons.mp h with rfl | h
    · by_cases he : eligibleB now n
      · cases b with
        | zero => simp [sweep, he]
        | succ b' =>
          simp only [sweep, he, if_true]
          rw [attemptDelivery_targetless n _ _ h1 h2]
          exact List.mem_cons_self _ _
      · simp [sweep, he]
    · by_cases he : eligibleB now m
      · cases b with
        | zero =>
          simp only [sweep, he, if_true]
          exact List.mem_cons_of_mem _ (ih 0 h)
        | succ b' =>
          simp only [sweep, he, if_true]
          exact List.mem_cons_of_mem _ (ih b' h)
      · simp only [sweep, he, if_false]
        exact List.mem_cons_of_mem _ (ih b h)

theorem attachTargets_proj (p : Prefs) (d : NotifData) :
    (attachTargets p d).scheduledFor = d.scheduledFor
    ∧ (attachTargets p d).ntype = d.ntype
    ∧ (attachTargets p d).priority = d.priority
    ∧ (attachTargets p d).recipient = d.recipient
    ∧ (attachTargets p d).dataKey = d.dataKey := by
  unfold attachTargets
  cases p.pushToken <;> cases p.webPushSubscription <;> simp

theorem computeScheduledFor_next (p : Prefs) (off now : Int)
    (hv : validHM p.quietEnd) :
    now < computeScheduledFor p off now
    ∧ computeScheduledFor p off now ≤ now + 1440
    ∧ wallOf off (computeScheduledFor p off now) = minutesOfDay p.quietEnd := by
  obtain ⟨h1, h2⟩ := hv
  simp only [computeScheduledFor, wallOf, minutesOfDay]
  split_ifs <;> push_cast <;> omega

/-! C4 -/

/-- C4: when the per-type toggle is off (or the global push switch is
off), `sendNotificationIfAllowed` returns `null` and leaves the
notification store unchanged — nothing is persisted and no channel is
attempted. -/
theorem sendIfAllowed_disabled_is_silent :
    ∀ (p : Prefs) (d : NotifData) (now off : Int) (po wo : Option Nat)
      (saveOk : Bool) (store : List Notification),
      (p.notificationTypes.lookup d.ntype = false ∨ p.pushEnabled = false) →
      sendNotificationIfAllowed p d now off po wo saveOk store =
        .ok (none, store, []) := by
  intro p d now off po wo saveOk store h
  apply sendIfAllowed_not_enabled
  unfold isNotificationEnabled
  rcases h with h | h <;> simp [h]

/-- Witness for C4: a recipient with push disabled and a reminder
payload. -/
theorem sendIfAllowed_disabled_is_silent_witness :
    (prefsPushOff.notificationTypes.lookup NotifType.reminder = false ∨
      prefsPushOff.pushEnabled = false)
    ∧ sendNotificationIfAllowed prefsPushOff dataReminder 0 0 none none true [] =
        .ok (none, [], []) :=
  ⟨Or.inr rfl,
   sendIfAllowed_disabled_is_silent prefsPushOff dataReminder 0 0 none none true []
     (Or.inr rfl)⟩

/-! C6 -/

/-- C6: the low-stock check is edge-triggered: the guard fires exactly
when the quantity moves from strictly above the threshold to at-or-below
it in one update; in particular with threshold 5 the update sequence
10→6→5→5→6→4 notifies exactly at 6→5 and at 6→4. -/
theorem lowStock_edge_trigger :
    (∀ threshold quantity prevQuantity : Int, 0 ≤ threshold →
      (shouldNotifyLowStock threshold quantity prevQuantity = true ↔
        threshold < prevQuantity ∧ quantity ≤ threshold))
    ∧ lowStockFlags 5 10 [6, 5, 5, 6, 4] = [false, true, false, false, true] := by
  constructor
  · intro th q prev h
    simp only [shouldNotifyLowStock]
    split_ifs with h1 h2 h3 <;> simp <;> omega
  · decide

/-- Witness for C6: the 6→5 crossing at threshold 5 notifies. -/
theorem lowStock_edge_trigger_witness :
    (0 : Int) ≤ 5 ∧ shouldNotifyLowStock 5 5 6 = true :=
  ⟨by decide, (lowStock_edge_trigger.1 5 5 6 (by decide)).mpr (by decide)⟩

/-! C10 -/

/-- C10: the four Notification-schema types absent from the
preferences' `notificationTypes` table (`contract_exceeded`,
`inventory_exceeded`, `attendance_checkin`, `attendance_checkout`) are
falsy under `isNotificationEnabled` for every preferences state, so
`sendNotificationIfAllowed` returns `null` and persists nothing for
them; in particular the contract-exceeded sweep body never grows the
store. -/
theorem sendIfAllowed_unregisteredTypes :
    (∀ (p : Prefs) (d : NotifData) (now off : Int) (po wo : Option Nat)
       (saveOk : Bool) (store : List Notification),
      (d.ntype = .contract_exceeded ∨ d.ntype = .inventory_exceeded ∨
       d.ntype = .attendance_checkin ∨ d.ntype = .attendance_checkout) →
      sendNotificationIfAllowed p d now off po wo saveOk store =
        .ok (none, store, []))
    ∧ (∀ (p : Prefs) (uid cKey : Nat) (msg : String) (now off : Int)
         (po wo : Option Nat) (saveOk : Bool) (store : List Notification),
        contractNotifyUser p uid cKey msg now off po wo saveOk store = store) := by
  refine ⟨fun p d now off po wo saveOk store h =>
    sendIfAllowed_unregistered p d now off po wo saveOk store h, ?_⟩
  intro p uid cKey msg now off po wo saveOk store
  have h := sendIfAllowed_unregistered p (contractPayload uid cKey msg) now off
    po wo saveOk store (Or.inl rfl)
  simp only [contractNotifyUser, h]
  split <;> rfl

/-- Witness for C10: a `contract_exceeded` payload is suppressed for the
default (all-on) preferences, and the contract sweep body leaves an
empty store empty. -/
theorem sendIfAllowed_unregisteredTypes_witness :
    sendNotificationIfAllowed prefsDefault
        { dataReminder with ntype := .contract_exceeded } 0 0 none none true [] =
      .ok (none, [], [])
    ∧ contractNotifyUser prefsDefault 1 7 "m" 0 0 none none true [] = [] :=
  ⟨sendIfAllowed_unregisteredTypes.1 prefsDefault
      { dataReminder with ntype := .contract_exceeded } 0 0 none none true []
      (Or.inl rfl),
   sendIfAllowed_unregisteredTypes.2 prefsDefault 1 7 "m" 0 0 none none true []⟩

/-! C3 -/

/-- C3 counterexample: at instant 450 (07:30 on a UTC server), a
recipient whose stored quiet-hours timezone is UTC+1 with window
08:00–18:00 is *inside* the window under the claim's
convert-to-stored-timezone semantics (08:30 local), yet the code
returns `false` — `isInQuietHours` never reads the stored timezone. -/
theorem isInQuietHours_timezone_cex :
    isInQuietHoursSpec prefsQuietTz 450 = true
    ∧ isInQuietHours prefsQuietTz 0 450 = false := by
  constructor <;> decide

/-- C3 (amended): `isInQuietHours` returns false when quiet hours are
disabled, and otherwise applies the claimed window logic (same-day
`start ≤ t ≤ end`, overnight `t ≥ start ∨ t ≤ end`) to minute-of-day
values taken from the **server-local** wall clock; the stored
`quietHours.timezone` is ignored (the result is invariant under it). -/
theorem isInQuietHours_amended :
    ∀ (p : Prefs) (off now : Int), validHM p.quietStart → validHM p.quietEnd →
      isInQuietHours p off now = isInQuietHoursServerMinutes p off now
      ∧ ∀ tz : Int,
          isInQuietHours { p with tzOffset := tz } off now =
            isInQuietHours p off now := by
  intro p off now hs he
  refine ⟨?_, fun tz => rfl⟩
  obtain ⟨hs1, hs2⟩ := hs
  obtain ⟨he1, he2⟩ := he
  cases hq : p.quietEnabled with
  | false => simp [isInQuietHours, isInQuietHoursServerMinutes, hq]
  | true =>
    have hw0 : (0 : Int) ≤ wallOf off now := Int.emod_nonneg _ (by norm_num)
    have hw1 : wallOf off now < 1440 := Int.emod_lt_of_pos _ (by norm_num)
    have hdm : 60 * (wallOf off now / 60) + wallOf off now % 60 = wallOf off now :=
      Int.ediv_add_emod _ 60
    have hm0 : (0 : Int) ≤ wallOf off now % 60 := Int.emod_nonneg _ (by norm_num)
    have hm1 : wallOf off now % 60 < 60 := Int.emod_lt_of_pos _ (by norm_num)
    rw [Bool.eq_iff_iff]
    simp only [isInQuietHours, isInQuietHoursServerMinutes, currentHHMM, hhmm,
      minutesOfDay, hq, Bool.not_true, Bool.false_eq_true, if_false,
      Bool.ite_eq_true_distrib, Bool.and_eq_true, Bool.or_eq_true,
      decide_eq_true_eq]
    push_cast
    split_ifs <;> constructor <;> intro h <;> omega

/-- Witness for C3 amended: the valid window 08:00–18:00 on a UTC
server at instant 450. -/
theorem isInQuietHours_amended_witness :
    validHM (8, 0) ∧ validHM (18, 0)
    ∧ isInQuietHours prefsQuietTz 0 450 =
        isInQuietHoursServerMinutes prefsQuietTz 0 450 :=
  ⟨⟨by decide, by decide⟩, ⟨by decide, by decide⟩,
   (isInQuietHours_amended prefsQuietTz 0 450 ⟨by decide, by decide⟩
     ⟨by decide, by decide⟩).1⟩

/-! C2 -/

/-- C2 counterexample: recipient timezone UTC+1 (stored), UTC server,
quiet window 00:00–08:00, a medium reminder at instant 60 (01:00 UTC).
The persisted record is scheduled for instant 480 — 08:00 in the
**server's** clock — while the next occurrence of the end time in the
recipient's stored timezone is instant 420; the claim's
"next occurrence of `quietHours.endTime` in the recipient's timezone"
is not what the code computes. -/
theorem quietSchedule_timezone_cex :
    (match sendNotificationIfAllowed prefsQuietNight dataReminder 60 0 none none
        true [] with
     | .ok (some n, _, _) => n.scheduledFor
     | _ => none) = some 480
    ∧ nextEndTimeInTzSpec 60 (8, 0) 60 = 420
    ∧ (480 : Int) ≠ 420 := by
  refine ⟨by decide, by decide, by decide⟩

/-- C2 (amended): for an enabled type, a send during quiet hours with
non-urgent priority persists a record with status `pending`, no channel
attempt, and `scheduledFor` equal to the next occurrence of
`quietHours.endTime` on the **server-local** clock (strictly in the
future, at most one day away, landing exactly on the end time's
server-local minute of day; the stored recipient timezone is ignored);
for `urgent` priority quiet hours are ignored, `scheduledFor` is never
set, and each channel target present is attempted immediately. -/
theorem quietSchedule_amended :
    ∀ (p : Prefs) (d : NotifData) (now off : Int) (po wo : Option Nat)
      (store : List Notification),
      validHM p.quietEnd →
      isNotificationEnabled p d.ntype = true →
      d.scheduledFor = none →
      ((isInQuietHours p off now = true → d.priority ≠ .urgent →
        ∃ n, sendNotificationIfAllowed p d now off po wo true store =
              .ok (some n, n :: store, [])
          ∧ n.status = .pending
          ∧ n.scheduledFor = some (computeScheduledFor p off now)
          ∧ now < computeScheduledFor p off now
          ∧ computeScheduledFor p off now ≤ now + 1440
          ∧ wallOf off (computeScheduledFor p off now) = minutesOfDay p.quietEnd)
      ∧ (d.priority = .urgent →
        ∃ n log, sendNotificationIfAllowed p d now off po wo true store =
              .ok (some n, n :: store, log)
          ∧ n.scheduledFor = none
          ∧ log = (if n.pushToken.isSome then [Chan.push] else []) ++
              (if n.webPushSubscription.isSome then [Chan.web] else []))) := by
  intro p d now off po wo store hv he hds
  constructor
  · intro hq hu
    have hnext := computeScheduledFor_next p off now hv
    have hsched : (attachTargets p
        { d with scheduledFor := some (computeScheduledFor p off now) }).scheduledFor =
        some (computeScheduledFor p off now) := by
      rw [(attachTargets_proj p _).1]
    refine ⟨mkPending (attachTargets p
      { d with scheduledFor := some (computeScheduledFor p off now) }) now,
      ?_, by simp [mkPending], by simp [mkPending, hsched],
      hnext.1, hnext.2.1, hnext.2.2⟩
    unfold sendNotificationIfAllowed
    rw [if_pos he, if_pos ⟨hq, hu⟩]
    dsimp only
    rw [createAndSend_future _ _ _ _ _ hsched hnext.1]
  · intro hu
    have hcond : ¬(isInQuietHours p off now = true ∧ d.priority ≠ .urgent) := by
      rintro ⟨-, h⟩; exact h hu
    have hsched : (attachTargets p d).scheduledFor = none := by
      rw [(attachTargets_proj p d).1, hds]
    refine ⟨(attemptDelivery (mkPending (attachTargets p d) now) po wo).1,
      (attemptDelivery (mkPending (attachTargets p d) now) po wo).2, ?_, ?_, ?_⟩
    · unfold sendNotificationIfAllowed
      rw [if_pos he, if_neg hcond]
      dsimp only
      rw [createAndSend_immediate _ _ _ _ (Or.inl hsched)]
    · rw [(attemptDelivery_frame _ po wo).1]
      simp [mkPending, hsched]
    · rw [attemptDelivery_log, (attemptDelivery_frame _ po wo).2.1,
        (attemptDelivery_frame _ po wo).2.2.1]

/-- Witness for C2 amended: the counterexample scenario on the quiet
branch (scheduled to 480), and an urgent send at the same instant on the
immediate branch. -/
theorem quietSchedule_amended_witness :
    (∃ n, sendNotificationIfAllowed prefsQuietNight dataReminder 60 0 none none
          true [] = .ok (some n, n :: [], [])
      ∧ n.status = .pending
      ∧ n.scheduledFor = some (computeScheduledFor prefsQuietNight 0 60)
      ∧ (60 : Int) < computeScheduledFor prefsQuietNight 0 60
      ∧ computeScheduledFor prefsQuietNight 0 60 ≤ 60 + 1440
      ∧ wallOf 0 (computeScheduledFor prefsQuietNight 0 60) =
          minutesOfDay prefsQuietNight.quietEnd)
    ∧ (∃ n log, sendNotificationIfAllowed prefsQuietNight
          { dataReminder with priority := .urgent } 60 0 none none true [] =
            .ok (some n, n :: [], log)
      ∧ n.scheduledFor = none
      ∧ log = (if n.pushToken.isSome then [Chan.push] else []) ++
          (if n.webPushSubscription.isSome then [Chan.web] else [])) :=
  ⟨(quietSchedule_amended prefsQuietNight dataReminder 60 0 none none []
      ⟨by decide, by decide⟩ (by decide) rfl).1 (by decide) (by decide),
   (quietSchedule_amended prefsQuietNight
      { dataReminder with priority := .urgent } 60 0 none none []
      ⟨by decide, by decide⟩ (by decide) rfl).2 rfl⟩

/-! C1 -/

/-- C1: `createAndSend` persists the record first with status `pending`;
a persistence failure propagates as the only error (with no channel
attempt); a future `scheduledFor` returns the pending record with no
channel attempt; otherwise each channel target present is attempted
(zero, one, or two), any acknowledgment makes the record `delivered`
with the response recorded, no acknowledgment leaves the persisted
record pending, and channel transport failures never propagate. -/
theorem createAndSend_contract :
    ∀ (d : NotifData) (now : Int) (po wo : Option Nat),
      createAndSend d now po wo false = (.error .persistFailure, [])
      ∧ (∃ n, (createAndSend d now po wo true).1 = .ok n)
      ∧ (mkPending d now).status = .pending
      ∧ (∀ t, d.scheduledFor = some t → now < t →
          createAndSend d now po wo true = (.ok (mkPending d now), []))
      ∧ ((d.scheduledFor = none ∨ ∃ t, d.scheduledFor = some t ∧ t ≤ now) →
          (createAndSend d now po wo true).2 =
            (if d.pushToken.isSome then [Chan.push] else []) ++
            (if d.webPushSubscription.isSome then [Chan.web] else [])
          ∧ ((d.pushToken.isSome ∧ po.isSome ∨
              d.webPushSubscription.isSome ∧ wo.isSome) →
              ∃ n, (createAndSend d now po wo true).1 = .ok n
                ∧ n.status = .delivered ∧ n.pushResponse.isSome)
          ∧ ((po = none ∨ d.pushToken = none) →
             (wo = none ∨ d.webPushSubscription = none) →
              (createAndSend d now po wo true).1 = .ok (mkPending d now))) := by
  intro d now po wo
  have hpt : (mkPending d now).pushToken = d.pushToken := by simp [mkPending]
  have hwt : (mkPending d now).webPushSubscription = d.webPushSubscription := by
    simp [mkPending]
  refine ⟨rfl, ?_, by simp [mkPending], ?_, ?_⟩
  · rcases hd : d.scheduledFor with _ | t
    · rw [createAndSend_immediate d now po wo (Or.inl hd)]
      exact ⟨_, rfl⟩
    · by_cases hlt : now < t
      · rw [createAndSend_future d now po wo t hd hlt]
        exact ⟨_, rfl⟩
      · rw [createAndSend_immediate d now po wo (Or.inr ⟨t, hd, by omega⟩)]
        exact ⟨_, rfl⟩
  · intro t hd hlt
    exact createAndSend_future d now po wo t hd hlt
  · intro hd
    rw [createAndSend_immediate d now po wo hd]
    refine ⟨?_, ?_, ?_⟩
    · rw [attemptDelivery_log, hpt, hwt]
    · intro h
      have hack := attemptDelivery_ack (mkPending d now) po wo
        (by rw [hpt, hwt]; exact h)
      exact ⟨_, rfl, hack.1, hack.2⟩
    · intro h1 h2
      have h1' : po = none ∨ (mkPending d now).pushToken = none := by
        rcases h1 with h | h
        · exact Or.inl h
        · exact Or.inr (by rw [hpt, h])
      have h2' : wo = none ∨ (mkPending d now).webPushSubscription = none := by
        rcases h2 with h | h
        · exact Or.inl h
        · exact Or.inr (by rw [hwt, h])
      rw [attemptDelivery_noAck _ po wo h1' h2']

/-- Witness for C1: a payload with a push token; a failing save
propagates, and with an acknowledging transport the record ends
`delivered` with the response stored. -/
theorem createAndSend_contract_witness :
    createAndSend dataWithToken 0 (some 1) none false = (.error .persistFailure, [])
    ∧ (∃ n, (createAndSend dataWithToken 0 (some 1) none true).1 = .ok n
        ∧ n.status = .delivered ∧ n.pushResponse.isSome) :=
  ⟨(createAndSend_contract dataWithToken 0 (some 1) none).1,
   ((createAndSend_contract dataWithToken 0 (some 1) none).2.2.2.2
      (Or.inl rfl)).2.1 (Or.inl ⟨rfl, rfl⟩)⟩

/-! C5 -/

/-- C5 counterexample: `sendNotificationIfAllowed` consults no dedup
guard.  With two same-day `low_stock` records already stored for
(recipient 1, key 7) — the count the claim says blocks the send at a
daily cap of 2 — a further call persists a third record instead of
returning `null`.  (The only daily cap in the code, 2 for
`contract_exceeded`, lives in the sweep caller
`checkAndNotifyExceededContracts`, not in `sendIfAllowed`.) -/
theorem dedupGuard_cex :
    countSameDay storeTwoPrior 1 NotifType.low_stock (some 7) 0 = 2
    ∧ sendNotificationIfAllowed prefsDefault (lowStockData 1 7) 300 0 none none
        true storeTwoPrior =
      .ok (some (mkPending (lowStockData 1 7) 300),
           mkPending (lowStockData 1 7) 300 :: storeTwoPrior, []) :=
  ⟨by decide, rfl⟩

/-- C5 (amended): the daily cap is enforced by the contract sweep
caller, not inside `sendIfAllowed`: the sweep body counts the same-day
(recipient, `contract_exceeded`, contractId) records and skips the
send once the count has reached 2, so a third qualifying sweep event
on the same server-local calendar day yields no new record;
`sendNotificationIfAllowed` itself consults no dedup guard and, for an
enabled type with a successful save, persists a new record regardless
of the existing same-day count for the same (recipient, type, key). -/
theorem dedupGuard_amended :
    ∀ (p : Prefs) (uid cKey : Nat) (msg : String) (now off : Int)
      (po wo : Option Nat) (saveOk : Bool) (store : List Notification)
      (d : NotifData),
      (2 ≤ countSameDay store uid .contract_exceeded (some cKey)
          (now - wallOf off now) →
        contractNotifyUser p uid cKey msg now off po wo saveOk store = store)
      ∧ (isNotificationEnabled p d.ntype = true →
        ∃ n log, sendNotificationIfAllowed p d now off po wo true store =
          .ok (some n, n :: store, log)) := by
  intro p uid cKey msg now off po wo saveOk store d
  constructor
  · intro h
    unfold contractNotifyUser
    dsimp only
    rw [if_pos h]
  · intro he
    unfold sendNotificationIfAllowed
    rw [if_pos he]
    dsimp only
    obtain ⟨n, log, hc⟩ := createAndSend_ok
      (attachTargets p
        (if isInQuietHours p off now ∧ d.priority ≠ NPriority.urgent then
          { d with scheduledFor := some (computeScheduledFor p off now) }
         else d)) now po wo
    rw [hc]
    exact ⟨n, log, rfl⟩

/-- Witness for C5 amended: the sweep body skips at count 2 for the
contract store, and `sendIfAllowed` persists a `low_stock` record on
top of two same-day ones. -/
theorem dedupGuard_amended_witness :
    (2 ≤ countSameDay storeTwoContract 1 NotifType.contract_exceeded (some 7)
        (300 - wallOf 0 300)
     ∧ contractNotifyUser prefsDefault 1 7 "m" 300 0 none none true
         storeTwoContract = storeTwoContract)
    ∧ (isNotificationEnabled prefsDefault (lowStockData 1 7).ntype = true
       ∧ ∃ n log, sendNotificationIfAllowed prefsDefault (lowStockData 1 7) 300 0
           none none true storeTwoPrior = .ok (some n, n :: storeTwoPrior, log)) :=
  ⟨⟨by decide,
    (dedupGuard_amended prefsDefault 1 7 "m" 300 0 none none true storeTwoContract
      (lowStockData 1 7)).1 (by decide)⟩,
   ⟨by decide,
    (dedupGuard_amended prefsDefault 1 7 "m" 300 0 none none true storeTwoPrior
      (lowStockData 1 7)).2 (by decide)⟩⟩

/-! C7 -/

/-- C7 counterexample: an archived record passed to `markAsRead` (the
`PUT /:id/read` route finds the record by id and recipient with no
status guard) comes out `read` — a transition out of `archived`; the
`read-all` update (`status ≠ read` is its only filter) does the same. -/
theorem statusMonotonic_cex :
    nArchived.status = .archived
    ∧ (markAsRead nArchived 5).status = .read
    ∧ NStatus.read ≠ NStatus.archived
    ∧ (readAllOne nArchived.recipient 5 nArchived).status = .read := by
  refine ⟨rfl, rfl, by decide, by decide⟩

/-- C7 (amended): delivery operations only move a record's status to
`delivered` or leave it unchanged, and no operation ever sets a
non-pending record back to `pending`; but `markAsRead` and the
read-all update set status `read` unguarded from **any** state
(including `pending` and `archived`), and the archive route sets
`archived` from any state — so status is not monotonic in the claimed
sense: `archived → read` and `pending → read` are reachable. -/
theorem statusTransitions_amended :
    ∀ (n : Notification) (t : Int) (uid : Nat) (r po wo : Option Nat),
      (markAsRead n t).status = .read
      ∧ (archiveNotification n).status = .archived
      ∧ (markAsDelivered n r).status = .delivered
      ∧ ((readAllOne uid t n).status = .read ∨ readAllOne uid t n = n)
      ∧ ((attemptDelivery n po wo).1.status = n.status
         ∨ (attemptDelivery n po wo).1.status = .delivered)
      ∧ (markAsRead n t).status ≠ .pending
      ∧ (archiveNotification n).status ≠ .pending
      ∧ (markAsDelivered n r).status ≠ .pending := by
  intro n t uid r po wo
  refine ⟨rfl, rfl, rfl, ?_, (attemptDelivery_frame n po wo).2.2.2.2,
    by simp [markAsRead], by simp [archiveNotification], by simp [markAsDelivered]⟩
  unfold readAllOne
  split_ifs
  · exact Or.inl rfl
  · exact Or.inr rfl

/-- Witness for C7 amended: the archived sample record under
`markAsRead` and the archive route. -/
theorem statusTransitions_amended_witness :
    (markAsRead nArchived 5).status = .read
    ∧ (archiveNotification nArchived).status = .archived
    ∧ (markAsDelivered nArchived (some 1)).status = .delivered :=
  ⟨(statusTransitions_amended nArchived 5 1 (some 1) none none).1,
   (statusTransitions_amended nArchived 5 1 (some 1) none none).2.1,
   (statusTransitions_amended nArchived 5 1 (some 1) none none).2.2.1⟩

/-! C8 -/

/-- C8: a dispatcher sweep selects at most 100 records, all satisfying
the selection predicate (status `pending` or `sent`, `scheduledFor`
present and ≤ now) — and exactly the eligible records whenever at most
100 are eligible; for each selected record every channel target stored
on the record is re-attempted, any acknowledgment marks it
`delivered`, and a record whose attempts all fail is returned
unchanged — in particular it keeps its status and still satisfies the
selection predicate, so it is picked up again on the next sweep. -/
theorem processScheduled_contract :
    ∀ (store : List Notification) (now : Int) (n : Notification)
      (po wo : Option Nat),
      (selectScheduled store now).length ≤ 100
      ∧ (n ∈ selectScheduled store now → eligibleB now n = true)
      ∧ ((store.filter (eligibleB now)).length ≤ 100 →
          selectScheduled store now = store.filter (eligibleB now))
      ∧ (eligibleB now n = true →
          (n.status = NStatus.pending ∨ n.status = NStatus.sent)
          ∧ ∃ t, n.scheduledFor = some t ∧ t ≤ now)
      ∧ (attemptDelivery n po wo).2 =
          (if n.pushToken.isSome then [Chan.push] else []) ++
          (if n.webPushSubscription.isSome then [Chan.web] else [])
      ∧ ((n.pushToken.isSome ∧ po.isSome ∨
          n.webPushSubscription.isSome ∧ wo.isSome) →
          (attemptDelivery n po wo).1.status = .delivered)
      ∧ ((po = none ∨ n.pushToken = none) →
         (wo = none ∨ n.webPushSubscription = none) →
          (attemptDelivery n po wo).1 = n
          ∧ (eligibleB now n = true →
              eligibleB now (attemptDelivery n po wo).1 = true)) := by
  intro store now n po wo
  refine ⟨?_, ?_, ?_, ?_, attemptDelivery_log n po wo, ?_, ?_⟩
  · simp only [selectScheduled, List.length_take]
    exact min_le_left _ _
  · intro h
    exact (List.mem_filter.mp (List.take_subset 100 _ h)).2
  · intro h
    exact List.take_of_length_le h
  · intro h
    rcases hs : n.scheduledFor with _ | t
    · simp [eligibleB, hs] at h
    · simp only [eligibleB, hs, Bool.and_eq_true, Bool.or_eq_true,
        decide_eq_true_eq] at h
      exact ⟨h.2, t, rfl, h.1⟩
  · intro h
    exact (attemptDelivery_ack n po wo h).1
  · intro h1 h2
    have heq := attemptDelivery_noAck n po wo h1 h2
    exact ⟨heq, fun h => by rw [heq]; exact h⟩

/-- Witness for C8: the targetless pending record scheduled for minute
50 is eligible at minute 60, decomposes as claimed, and survives a
failing sweep unchanged. -/
theorem processScheduled_contract_witness :
    eligibleB 60 nTargetless = true
    ∧ ((nTargetless.status = NStatus.pending ∨ nTargetless.status = NStatus.sent)
       ∧ ∃ t, nTargetless.scheduledFor = some t ∧ t ≤ 60)
    ∧ (attemptDelivery nTargetless none none).1 = nTargetless :=
  ⟨by decide,
   (processScheduled_contract [nTargetless] 60 nTargetless none none).2.2.2.1
     (by decide),
   ((processScheduled_contract [nTargetless] 60 nTargetless none none).2.2.2.2.2.2
     (Or.inl rfl) (Or.inl rfl)).1⟩

/-! C9 -/

/-- C9: a record with no channel targets is never modified by
dispatcher sweeps (no channel is attempted for it), and registering a
push token or web-push subscription afterward changes only the
preferences, never the stored records: across any sequence of sweeps
and target registrations the identical record — still `pending` if it
was — remains in the store; only new payloads pick up a
later-registered target. -/
theorem targetless_record_frame :
    ∀ (n : Notification) (s : SysState) (ops : List Op) (tok : String)
      (sub : Nat) (t : Int),
      (applyOp s (.pushTokenOp tok t)).store = s.store
      ∧ (applyOp s (.webSubOp sub t)).store = s.store
      ∧ (n.pushToken = none → n.webPushSubscription = none →
          n ∈ s.store → n ∈ (runOps s ops).store) := by
  intro n s ops tok sub t
  refine ⟨rfl, rfl, ?_⟩
  intro h1 h2
  induction ops generalizing s with
  | nil => exact fun h => h
  | cons op rest ih =>
    intro h
    simp only [runOps]
    apply ih
    cases op with
    | sweepOp orc now => exact mem_sweep n h1 h2 orc now s.store 100 h
    | pushTokenOp tok' t' => exact h
    | webSubOp s' t' => exact h

/-- Witness for C9: the targetless pending record survives two
acknowledging sweeps around a push-token registration. -/
theorem targetless_record_frame_witness :
    (applyOp sysTargetless (Op.pushTokenOp "tk" 3)).store = sysTargetless.store
    ∧ nTargetless ∈ (runOps sysTargetless opsSample).store :=
  ⟨(targetless_record_frame nTargetless sysTargetless opsSample "tk" 0 3).1,
   (targetless_record_frame nTargetless sysTargetless opsSample "tk" 0 3).2.2
     rfl rfl (by simp [sysTargetless])⟩

end Wms
